import Mathlib

/-!
Verification of the Backbone.Courier message-bubbling engine.

The definitions below are a shallow embedding of the library source
(backbone.courier.js, the UMD module): the `view.spawn` bubbling loop and the
private utility `getValueOfBestMatchingHashEntry`, together with the data they
operate on.  JavaScript strings are modelled as lists of characters
(`List Char`), JavaScript values by the inductive `JSVal`, and views by the
structure `CView`.  The parent-resolution collaborator (`_getParentView`,
`findClosestParentView`) is DOM-based and pluggable in the source; a spawn call
only observes the chain of successive parents, so `spawn` here receives that
ancestor chain as a list.  Handler invocations are recorded in a trace so that
"this handler fired with these arguments" is observable.
-/

namespace Courier

/-- JavaScript strings, modelled as lists of characters. -/
abbrev JSStr := List Char

/-- Convenience conversion from a Lean string literal to a `JSStr`. -/
def str (x : String) : JSStr := x.data

/-- JavaScript values as far as the engine observes them: the engine never
inspects application payloads or handler return values, so objects are carried
as opaque identity tokens. -/
inductive JSVal where
  | undef : JSVal
  | boolV (b : Bool) : JSVal
  | numV (n : Int) : JSVal
  | strV (s : JSStr) : JSVal
  | obj (token : Nat) : JSVal
deriving DecidableEq, Repr

/-- A message handler: called as `method.call( curParent, message.data,
message.source, message.name )` (spawn loop).  The source argument is the view
identity (modelled by its numeric id); the result is the handler's return
value.  Handlers are arbitrary application code, modelled as pure functions. -/
abbrev Handler := JSVal → Nat → JSStr → JSVal

/-- A value stored in an `onMessages` hash: either a direct function body or
the name of a method to be looked up on the view (`if( ! _.isFunction( method ) )
method = curParent[ value ];`). -/
inductive HVal where
  | fn (f : Handler) : HVal
  | byName (s : JSStr) : HVal

/-- The resolved value of `_.result( curParent, "passMessages" )`: the
`passMessages` property after calling it if it is a function.  `undef` is an
absent property; `hashV` is the key/directive mapping shape that older
documentation describes; `otherVal` is any further JavaScript value (string,
number, null, ...).  The spawn loop accepts only `boolV` and `arrV` and treats
every remaining defined shape through its single `else` branch. -/
inductive PassVal where
  | undef : PassVal
  | boolV (b : Bool) : PassVal
  | arrV (names : List JSStr) : PassVal
  | hashV (entries : List (JSStr × JSStr)) : PassVal
  | otherVal : PassVal

/-- A view as the engine sees it.  `id` models JavaScript object identity
(used for `===` comparisons against `message.source` / `curChild`).
`onMessages` is `none` when `_.isObject( curParent.onMessages )` fails.
`subviews` models the extension of `view._getChildViewNamed` (default: lookup
in `view.subviews`); `methods` models named-method lookup `curParent[ value ]`
(absent name means no callable property). -/
structure CView where
  id : Nat
  onMessages : Option (List (JSStr × HVal)) := none
  passMessages : PassVal := .undef
  subviews : List (JSStr × Nat) := []
  methods : List (JSStr × Handler) := []

/-- The message envelope built at the top of `view.spawn`: `{ name, data,
source }`.  `sourceId` is the id of the view stored in `message.source`. -/
structure Msg where
  name : JSStr
  data : JSVal
  sourceId : Nat

/-- JavaScript `\w` character class used by the wildcard expansion
`eventName.replace( /\*/g, "[\\w]*" )`: letters, digits, underscore. -/
def isWordChar (c : Char) : Bool := c.isAlphanum || c == '_'

/-- Fuel-driven matcher for the anchored regular expression
`'^' + eventName.replace( /\*/g, "[\\w]*" ) + '$'`: a `*` in the pattern
matches zero or more word characters, every other pattern character matches
itself literally.  (The source does not escape other regex metacharacters;
patterns are taken from the metacharacter-free fragment, which every hash key
in the repository belongs to.)  The fuel `pattern.length + name.length + 1`
always suffices because each step shortens the pattern or the name. -/
def globMatchAux : Nat → List Char → List Char → Bool
  | 0, _, _ => false
  | _ + 1, [], [] => true
  | _ + 1, [], _ :: _ => false
  | fuel + 1, p :: ps, ns =>
    if p = '*' then
      globMatchAux fuel ps ns ||
        (match ns with
         | [] => false
         | n :: ns2 => isWordChar n && globMatchAux fuel (p :: ps) ns2)
    else
      match ns with
      | [] => false
      | n :: ns2 => p == n && globMatchAux fuel ps ns2

/-- Test of the event-name regular expression against the message name
(`eventNameRegEx.test( message.name )`). -/
def globMatch (pattern name : List Char) : Bool :=
  globMatchAux (pattern.length + name.length + 1) pattern name

/-- Split of a hash key by `delegateEventSplitter = /^(\S+)\s*(.*)$/` into
`eventName` (first run of non-whitespace characters) and `subviewName` (the
rest, after the separating whitespace). -/
def splitKey (key : JSStr) : JSStr × JSStr :=
  (key.takeWhile (fun c => !c.isWhitespace),
   (key.dropWhile (fun c => !c.isWhitespace)).dropWhile (fun c => c.isWhitespace))

/-- Default `view._getChildViewNamed( childViewName )`: look the name up in
`view.subviews`, `null` (here `none`) when absent. -/
def getChildViewNamed (view : CView) (childViewName : JSStr) : Option Nat :=
  (view.subviews.find? (fun kv => kv.1 = childViewName)).map (·.2)

/-- One matching entry collected by `getValueOfBestMatchingHashEntry`:
`{ eventName : eventName, subviewName : subviewName, value : hash[ key ] }`. -/
structure MatchEntry (α : Type) where
  eventName : JSStr
  subviewName : JSStr
  value : α
deriving DecidableEq, Repr

/-- The `matchingEntries` list built by the `for( var key in hash )` loop of
`getValueOfBestMatchingHashEntry`: keep an entry when its event pattern
matches the message name and its subview qualifier, if present, resolves to
the source view (`subviewName !== "" && view._getChildViewNamed( subviewName )
!== sourceView` skips the entry). -/
def matchingEntriesOf (hash : List (JSStr × α)) (msgName : JSStr)
    (view : CView) (sourceViewId : Nat) : List (MatchEntry α) :=
  hash.filterMap fun kv =>
    let eventName := (splitKey kv.1).1
    let subviewName := (splitKey kv.1).2
    if globMatch eventName msgName then
      if subviewName ≠ [] ∧ getChildViewNamed view subviewName ≠ some sourceViewId then
        none
      else
        some ⟨eventName, subviewName, kv.2⟩
    else
      none

/-- The specificity computed inside the `_.sortBy` callback:
`( hasSubviewQualifier ? 1000 : 0 ) + nonWildcardCharactersInEventName.length`,
where `nonWildcardCharactersInEventName = thisEntry.eventName.replace( "*", "" )`.
`String.prototype.replace` with a string argument replaces only the FIRST
occurrence, which `removeFirstStar` reproduces. -/
def removeFirstStar : List Char → List Char
  | [] => []
  | c :: cs => if c = '*' then cs else c :: removeFirstStar cs

/-- Specificity of a matching entry, as computed by the source. -/
def entrySpecificity (e : MatchEntry α) : Int :=
  (if e.subviewName ≠ [] then 1000 else 0) + ((removeFirstStar e.eventName).length : Int)

/-- Stable insertion of an element into a list ordered by ascending key:
the element goes before the first strictly larger key and after equal keys. -/
def insertByKey (key : α → Int) (x : α) : List α → List α
  | [] => [x]
  | y :: ys => if key x ≤ key y then x :: y :: ys else y :: insertByKey key x ys

/-- Stable ascending sort by an integer key: the model of underscore's
`_.sortBy` (which is documented as a stable sort). -/
def sortByKey (key : α → Int) : List α → List α
  | [] => []
  | x :: xs => insertByKey key x (sortByKey key xs)

/-- The entry selected by `getValueOfBestMatchingHashEntry` before the final
`.value` projection: when more than one entry matches, sort by negated
specificity (descending specificity) and take index 0; otherwise take the
single entry if any (`matchingEntries.length ? matchingEntries[ 0 ] : null`). -/
def bestMatchingEntry (hash : List (JSStr × α)) (msgName : JSStr)
    (view : CView) (sourceViewId : Nat) : Option (MatchEntry α) :=
  let matchingEntries := matchingEntriesOf hash msgName view sourceViewId
  let ordered :=
    if 1 < matchingEntries.length then
      sortByKey (fun e => -(entrySpecificity e)) matchingEntries
    else
      matchingEntries
  ordered.head?

/-- Source function `getValueOfBestMatchingHashEntry( hash, message, view,
sourceView )`: the value of the most specific matching entry, or `null`
(here `none`) when nothing matches. -/
def getValueOfBestMatchingHashEntry (hash : List (JSStr × α)) (msgName : JSStr)
    (view : CView) (sourceViewId : Nat) : Option α :=
  (bestMatchingEntry hash msgName view sourceViewId).map (·.value)

/-- Resolution of a hash value to a callable, from the spawn loop:
`var method = value; if( ! _.isFunction( method ) ) method = curParent[ value ];
if( ! method ) throw new Error( ... )`.  `none` models the thrown error. -/
def resolveMethod (view : CView) : HVal → Option Handler
  | .fn f => some f
  | .byName s => (view.methods.find? (fun kv => kv.1 = s)).map (·.2)

/-- The handler lookup performed at each ancestor: `null` unless
`_.isObject( curParent.onMessages )` holds and the matcher finds an entry. -/
def matchedHandlerValue (p : CView) (msg : Msg) (curChildId : Nat) : Option HVal :=
  match p.onMessages with
  | none => none
  | some hash => getValueOfBestMatchingHashEntry hash msg.name p curChildId

/-- The classification at the top of the spawn loop:
`message.name.charAt( message.name.length - 1 ) === "!"` (for the empty name
`charAt( -1 )` is the empty string, hence `false`). -/
def isRoundTripName (name : JSStr) : Bool :=
  match name.getLast? with
  | some c => c == '!'
  | none => false

/-- The per-iteration update of the `messageShouldBePassed` flag.  `prev` is
the flag's value from the previous iteration (JavaScript initializes the
variable to `undefined`, which behaves as `false`; the variable is declared
OUTSIDE the `while` loop and is NOT reset between iterations, so an
`undefined` pass table leaves the previous iteration's value in place).
`none` models the thrown `TypeError( "passMessages should be boolean or an
array." )`; both `hashV` and `otherVal` fall into that single `else` branch. -/
def passDecision (passMessages : PassVal) (msgName : JSStr) (isRT : Bool)
    (prev : Bool) : Option Bool :=
  if isRT then some true
  else
    match passMessages with
    | .undef => some prev
    | .boolV b => some b
    | .arrV names => some (names.contains msgName)
    | .hashV _ => none
    | .otherVal => none

/-- A recorded handler invocation: the ancestor whose handler ran, and the
three arguments `( message.data, message.source, message.name )` it was
called with. -/
structure Invocation where
  ancestorId : Nat
  data : JSVal
  sourceId : Nat
  name : JSStr
deriving DecidableEq, Repr

/-- How a spawn call ends: a returned value (possibly `undefined`), the
`Error` for an unresolvable named method, or the `TypeError` for an invalid
pass table shape. -/
inductive SpawnOut where
  | ret (v : JSVal) : SpawnOut
  | errNoMethod : SpawnOut
  | errTypeError : SpawnOut
deriving DecidableEq, Repr

/-- Result of a spawn call: the outcome together with the chronological list
of handler invocations that happened during the bubble. -/
structure SpawnResult where
  out : SpawnOut
  trace : List Invocation
deriving DecidableEq, Repr

/-- The `while( curParent )` loop of `view.spawn`, one list element per
ancestor (the successive results of `_getParentView`).  Per iteration: if the
ancestor has a matching `onMessages` entry, resolve and invoke it (returning
the handler's value immediately when the message is a round-trip message);
then decide whether to pass the message up (`passDecision`), break when the
flag is false, and otherwise advance `curChild` to this ancestor.  Note that
the envelope `msg` is threaded through UNCHANGED — in particular
`message.source` is assigned only once, before the loop, and never updated on
forwarding.  Falling off the end of the chain returns `undefined` (for
ordinary messages the function body simply ends; for round-trip messages via
the final `return undefined`). -/
def spawnAux (isRT : Bool) (msg : Msg) : Nat → Bool → List CView →
    List Invocation → SpawnResult
  | _, _, [], tr => ⟨.ret .undef, tr.reverse⟩
  | curChildId, sp, p :: rest, tr =>
    match matchedHandlerValue p msg curChildId with
    | some v =>
      match resolveMethod p v with
      | none => ⟨.errNoMethod, tr.reverse⟩
      | some f =>
        let tr2 := (⟨p.id, msg.data, msg.sourceId, msg.name⟩ : Invocation) :: tr
        if isRT then
          ⟨.ret (f msg.data msg.sourceId msg.name), tr2.reverse⟩
        else
          match passDecision p.passMessages msg.name isRT sp with
          | none => ⟨.errTypeError, tr2.reverse⟩
          | some b =>
            if b then spawnAux isRT msg p.id b rest tr2
            else ⟨.ret .undef, tr2.reverse⟩
    | none =>
      match passDecision p.passMessages msg.name isRT sp with
      | none => ⟨.errTypeError, tr.reverse⟩
      | some b =>
        if b then spawnAux isRT msg p.id b rest tr
        else ⟨.ret .undef, tr.reverse⟩

/-- Source method `view.spawn( messageName, data )`, string-name form (the
pre-built envelope form only repackages the same fields, and the
`this.trigger` observability hook does not affect bubbling, so neither is
modelled).  `message.source = view`; `message.data` defaults to a fresh empty
object `{}` when the data argument is `undefined`; then the loop runs over
the ancestor chain with `curChild = this` and `messageShouldBePassed`
initially `undefined` (falsy). -/
def spawn (spawnerId : Nat) (name : JSStr) (dat : Option JSVal)
    (chain : List CView) : SpawnResult :=
  let msg : Msg := ⟨name, dat.getD (.obj 0), spawnerId⟩
  spawnAux (isRoundTripName name) msg spawnerId false chain []

end Courier

namespace Courier

/-! ### Helper lemmas about the stable sort used by the pattern matcher -/

theorem mem_insertByKey {key : α → Int} {x a : α} {l : List α} :
    x ∈ insertByKey key a l ↔ x = a ∨ x ∈ l := by
  induction l with
  | nil => simp [insertByKey]
  | cons y ys ih =>
    simp only [insertByKey]
    by_cases hab : key a ≤ key y
    · rw [if_pos hab]
      simp [List.mem_cons]
    · rw [if_neg hab]
      simp only [List.mem_cons, ih]
      tauto

theorem mem_sortByKey {key : α → Int} {x : α} {l : List α} :
    x ∈ sortByKey key l ↔ x ∈ l := by
  induction l with
  | nil => simp [sortByKey]
  | cons a as ih =>
    simp only [sortByKey, mem_insertByKey, ih, List.mem_cons]

theorem insertByKey_head_min {key : α → Int} {a : α} {l : List α}
    (hl : ∀ h, l.head? = some h → ∀ y ∈ l, key h ≤ key y) :
    ∀ h, (insertByKey key a l).head? = some h →
      ∀ y, (y = a ∨ y ∈ l) → key h ≤ key y := by
  cases l with
  | nil =>
    intro h hh y hy
    simp only [insertByKey, List.head?] at hh
    cases hh
    rcases hy with rfl | hy
    · exact le_refl _
    · exact absurd hy (List.not_mem_nil y)
  | cons b bs =>
    intro h hh y hy
    simp only [insertByKey] at hh
    by_cases hab : key a ≤ key b
    · rw [if_pos hab] at hh
      simp only [List.head?] at hh
      cases hh
      rcases hy with rfl | hy
      · exact le_refl _
      · rcases List.mem_cons.mp hy with rfl | hy2
        · exact hab
        · exact le_trans hab (hl b rfl y (List.mem_cons_of_mem _ hy2))
    · rw [if_neg hab] at hh
      simp only [List.head?] at hh
      cases hh
      rcases hy with rfl | hy
      · exact le_of_lt (lt_of_not_le hab)
      · exact hl b rfl y hy

theorem sortByKey_head_min {key : α → Int} {l : List α} :
    ∀ h, (sortByKey key l).head? = some h → ∀ y ∈ l, key h ≤ key y := by
  induction l with
  | nil =>
    intro h hh
    simp [sortByKey] at hh
  | cons a as ih =>
    intro h hh y hy
    have step := @insertByKey_head_min _ key a (sortByKey key as)
      (fun h2 hh2 y2 hy2 => ih h2 hh2 y2 (mem_sortByKey.mp hy2)) h hh
    rcases List.mem_cons.mp hy with rfl | hy2
    · exact step y (Or.inl rfl)
    · exact step y (Or.inr (mem_sortByKey.mpr hy2))

end Courier

namespace Courier

/-! ### Claim theorems -/

/-- C1: for a round-trip message (name ending in the terminal marker `!`), if
the ancestor currently being visited has a matching `onMessages` entry that
resolves to a handler `f`, the spawn loop invokes `f` and returns its result
immediately — even when that result is `undefined` — and the remainder of the
ancestor chain (`rest`) plays no role at all: the result and the invocation
trace are independent of `rest`, so no higher ancestor's handler table is
consulted and no higher handler fires. -/
theorem c1_roundtrip_short_circuit (msg : Msg) (c : Nat) (sp : Bool)
    (p : CView) (rest : List CView) (tr : List Invocation) (v : HVal) (f : Handler)
    (hrt : isRoundTripName msg.name = true)
    (hm : matchedHandlerValue p msg c = some v)
    (hr : resolveMethod p v = some f) :
    spawnAux (isRoundTripName msg.name) msg c sp (p :: rest) tr =
      ⟨.ret (f msg.data msg.sourceId msg.name),
       ((⟨p.id, msg.data, msg.sourceId, msg.name⟩ : Invocation) :: tr).reverse⟩ := by
  rw [hrt]
  simp only [spawnAux, hm, hr, if_true]

/-- Witness for C1: a `giveInfo!` round-trip message handled by the immediate
parent (id 1) whose handler returns `undefined`: spawn returns `undefined`
immediately and the grandparent's handler (id 2, which would return 7) does
not fire — the trace names only ancestor 1. -/
theorem c1_roundtrip_short_circuit_witness :
    isRoundTripName (str "giveInfo!") = true ∧
    spawnAux (isRoundTripName (str "giveInfo!")) ⟨str "giveInfo!", .obj 0, 0⟩ 0 false
        [{ id := 1, onMessages := some [(str "giveInfo!", .fn fun _ _ _ => .undef)] },
         { id := 2, onMessages := some [(str "giveInfo!", .fn fun _ _ _ => .numV 7)] }] [] =
      ⟨.ret .undef, [⟨1, .obj 0, 0, str "giveInfo!"⟩]⟩ :=
  ⟨by decide,
   c1_roundtrip_short_circuit ⟨str "giveInfo!", .obj 0, 0⟩ 0 false
     { id := 1, onMessages := some [(str "giveInfo!", .fn fun _ _ _ => .undef)] }
     [{ id := 2, onMessages := some [(str "giveInfo!", .fn fun _ _ _ => .numV 7)] }] []
     (.fn fun _ _ _ => .undef) (fun _ _ _ => .undef) (by decide) rfl rfl⟩

/-- C7: while bubbling a round-trip message, an ancestor's pass table is never
consulted.  If the visited ancestor has no matching handler, the walk proceeds
unconditionally to the next ancestor — `p` here is arbitrary, so the equation
holds whatever `p.passMessages` contains (absent, boolean, array, the mapping
shape, or any unrecognized value): no hypothesis about the pass table is
needed, and no `TypeError` can arise from it. -/
theorem c7_roundtrip_skips_pass_table (msg : Msg) (c : Nat) (sp : Bool)
    (p : CView) (rest : List CView) (tr : List Invocation)
    (hrt : isRoundTripName msg.name = true)
    (hnoh : matchedHandlerValue p msg c = none) :
    spawnAux (isRoundTripName msg.name) msg c sp (p :: rest) tr =
      spawnAux (isRoundTripName msg.name) msg p.id true rest tr := by
  rw [hrt]
  simp only [spawnAux, hnoh, passDecision, if_true]

/-- Witness for C7: ancestor 1 carries an unrecognized pass table shape and no
handler for the round-trip message `q!`; bubbling continues past it without a
`TypeError` (and indeed grandparent 2, which handles `q!`, is reached). -/
theorem c7_roundtrip_skips_pass_table_witness :
    isRoundTripName (str "q!") = true ∧
    matchedHandlerValue { id := 1, passMessages := .otherVal } ⟨str "q!", .obj 0, 0⟩ 0 = none ∧
    spawnAux (isRoundTripName (str "q!")) ⟨str "q!", .obj 0, 0⟩ 0 false
        [{ id := 1, passMessages := .otherVal },
         { id := 2, onMessages := some [(str "q!", .fn fun _ _ _ => .numV 3)] }] [] =
      spawnAux (isRoundTripName (str "q!")) ⟨str "q!", .obj 0, 0⟩ 1 true
        [{ id := 2, onMessages := some [(str "q!", .fn fun _ _ _ => .numV 3)] }] [] :=
  ⟨by decide, rfl,
   c7_roundtrip_skips_pass_table ⟨str "q!", .obj 0, 0⟩ 0 false
     { id := 1, passMessages := .otherVal }
     [{ id := 2, onMessages := some [(str "q!", .fn fun _ _ _ => .numV 3)] }] []
     (by decide) rfl⟩

/-- Helper for C8: a round-trip message that no ancestor on the chain handles
walks the whole chain (pass tables are never consulted) and falls off the end,
where the loop exit `if( isRoundTripMessage ) return undefined;` yields
`undefined` with no handler ever invoked. -/
theorem spawnAux_roundtrip_unhandled (msg : Msg) (chain : List CView)
    (hnone : ∀ p ∈ chain, ∀ c, matchedHandlerValue p msg c = none) :
    ∀ c sp tr, spawnAux true msg c sp chain tr = ⟨.ret .undef, tr.reverse⟩ := by
  induction chain with
  | nil => intro c sp tr; rfl
  | cons p rest ih =>
    intro c sp tr
    have h1 := hnone p (List.mem_cons_self _ _) c
    simp only [spawnAux, h1, passDecision, if_true]
    exact ih (fun q hq c2 => hnone q (List.mem_cons_of_mem _ hq) c2) p.id true tr

/-- C8: spawning a round-trip message for which no ancestor in the chain has a
matching handler always produces the same fixed outcome: `spawn` returns the
explicit no-value result `undefined` (it does not throw).  Since `spawn` is a
pure function of its inputs, this outcome is deterministic across repeated
calls with the same configuration. -/
theorem c8_unhandled_roundtrip_returns_undefined (srcId : Nat) (name : JSStr)
    (dat : Option JSVal) (chain : List CView)
    (hrt : isRoundTripName name = true)
    (hnone : ∀ p ∈ chain, ∀ c,
      matchedHandlerValue p ⟨name, dat.getD (.obj 0), srcId⟩ c = none) :
    spawn srcId name dat chain = ⟨.ret .undef, []⟩ := by
  unfold spawn
  rw [hrt]
  exact spawnAux_roundtrip_unhandled _ _ hnone _ _ _

/-- Witness for C8: a round-trip message `roundtripMessage!` spawned through
two ancestors neither of which has any handler table returns `undefined` with
an empty invocation trace. -/
theorem c8_unhandled_roundtrip_returns_undefined_witness :
    isRoundTripName (str "roundtripMessage!") = true ∧
    spawn 0 (str "roundtripMessage!") none
        [{ id := 1 }, { id := 2, passMessages := .boolV true }] =
      ⟨.ret .undef, []⟩ :=
  ⟨by decide,
   c8_unhandled_roundtrip_returns_undefined 0 (str "roundtripMessage!") none
     [{ id := 1 }, { id := 2, passMessages := .boolV true }] (by decide)
     (by
       intro p hp c
       rcases List.mem_cons.mp hp with rfl | hp2
       · rfl
       · rcases List.mem_cons.mp hp2 with rfl | hp3
         · rfl
         · exact absurd hp3 (List.not_mem_nil p))⟩

end Courier

namespace Courier

/-- C10: at a visited ancestor with no matching handler, an ordinary message
is forwarded exactly as the resolved `passMessages` dictates.  Array shape:
forwarded if and only if the array contains the message's exact current name
as an element (`_.contains` compares by plain string equality, so wildcard
characters inside array elements have no special meaning).  Boolean shape:
forwarded if and only if the boolean is `true`.  In either forwarded case the
recursive call receives the identical envelope `msg`: name and payload travel
unchanged. -/
theorem c10_array_boolean_pass_semantics (msg : Msg) (c : Nat) (sp : Bool)
    (p : CView) (rest : List CView) (tr : List Invocation)
    (hnoh : matchedHandlerValue p msg c = none) :
    (∀ l, p.passMessages = .arrV l →
      spawnAux false msg c sp (p :: rest) tr =
        if l.contains msg.name then spawnAux false msg p.id true rest tr
        else ⟨.ret .undef, tr.reverse⟩) ∧
    (∀ b, p.passMessages = .boolV b →
      spawnAux false msg c sp (p :: rest) tr =
        if b then spawnAux false msg p.id true rest tr
        else ⟨.ret .undef, tr.reverse⟩) := by
  constructor
  · intro l hl
    simp only [spawnAux, hnoh, passDecision, hl, if_neg Bool.false_ne_true]
    by_cases hc : l.contains msg.name
    · rw [if_pos hc, if_pos hc, hc]
    · rw [if_neg hc, if_neg hc]
  · intro b hb
    simp only [spawnAux, hnoh, passDecision, hb, if_neg Bool.false_ne_true]
    cases b <;> simp

/-- Witness for C10: the array element `me*` does not forward the message
`message1` (wildcards are meaningless in the array shape), while the array
element `message1` forwards it, with the identical envelope, to the rest of
the chain. -/
theorem c10_array_boolean_pass_semantics_witness :
    spawnAux false ⟨str "message1", .numV 7, 0⟩ 0 false
        [{ id := 1, passMessages := .arrV [str "me*"] }, { id := 2 }] [] =
      ⟨.ret .undef, []⟩ ∧
    spawnAux false ⟨str "message1", .numV 7, 0⟩ 0 false
        [{ id := 1, passMessages := .arrV [str "message1"] }, { id := 2 }] [] =
      spawnAux false ⟨str "message1", .numV 7, 0⟩ 1 true [{ id := 2 }] [] :=
  ⟨by
    have h := (c10_array_boolean_pass_semantics ⟨str "message1", .numV 7, 0⟩ 0 false
      { id := 1, passMessages := .arrV [str "me*"] } [{ id := 2 }] [] rfl).1
      [str "me*"] rfl
    simpa using h,
   by
    have h := (c10_array_boolean_pass_semantics ⟨str "message1", .numV 7, 0⟩ 0 false
      { id := 1, passMessages := .arrV [str "message1"] } [{ id := 2 }] [] rfl).1
      [str "message1"] rfl
    simpa using h⟩

end Courier

namespace Courier

/-- Counterexample for C9: the claim lists the key/directive mapping shape as
one of the accepted pass-table shapes, but the spawn loop's shape test
(`_.isBoolean` / `_.isArray` / else `throw new TypeError`) rejects it: a
mapping-shaped `passMessages` aborts the bubble of an ordinary message with a
`TypeError`. -/
theorem c9_mapping_shape_rejected :
    spawn 0 (str "message1") none [{ id := 1, passMessages := .hashV [] }] =
      ⟨.errTypeError, []⟩ := rfl

/-- C9 (amended): during the bubble of an ordinary message, a visited
ancestor's resolved pass table produces the `TypeError` exactly when it is
present but neither a boolean nor an array — the key/directive mapping shape
is NOT accepted and raises the same `TypeError` — while the accepted shapes
(absent, boolean, array) never raise it at this step: they either forward the
message or end the bubble normally. -/
theorem c9_typeerror_shape_characterization (msg : Msg) (c : Nat) (sp : Bool)
    (p : CView) (rest : List CView) (tr : List Invocation)
    (hnoh : matchedHandlerValue p msg c = none) :
    ((∀ h2, p.passMessages = .hashV h2 →
        spawnAux false msg c sp (p :: rest) tr = ⟨.errTypeError, tr.reverse⟩) ∧
     (p.passMessages = .otherVal →
        spawnAux false msg c sp (p :: rest) tr = ⟨.errTypeError, tr.reverse⟩)) ∧
    ((p.passMessages = .undef ∨ (∃ b, p.passMessages = .boolV b) ∨
        (∃ l, p.passMessages = .arrV l)) →
      spawnAux false msg c sp (p :: rest) tr = spawnAux false msg p.id true rest tr ∨
      spawnAux false msg c sp (p :: rest) tr = ⟨.ret .undef, tr.reverse⟩) := by
  refine ⟨⟨?_, ?_⟩, ?_⟩
  · intro h2 hh
    simp only [spawnAux, hnoh, passDecision, hh, if_neg Bool.false_ne_true]
  · intro hh
    simp only [spawnAux, hnoh, passDecision, hh, if_neg Bool.false_ne_true]
  · intro hacc
    rcases hacc with hh | ⟨b, hh⟩ | ⟨l, hh⟩
    · simp only [spawnAux, hnoh, passDecision, hh, if_neg Bool.false_ne_true]
      cases sp
      · exact Or.inr rfl
      · exact Or.inl rfl
    · simp only [spawnAux, hnoh, passDecision, hh, if_neg Bool.false_ne_true]
      cases b
      · exact Or.inr rfl
      · exact Or.inl rfl
    · simp only [spawnAux, hnoh, passDecision, hh, if_neg Bool.false_ne_true]
      cases hc : l.contains msg.name
      · simp only [hc, Bool.false_eq_true, if_false]
        exact Or.inr trivial
      · simp only [hc, if_true]
        exact Or.inl trivial

/-- Witness for C9 (amended): a mapping-shaped pass table raises the
`TypeError` at the visited ancestor, while an (empty) array — which does not
contain the message name — ends the bubble normally instead. -/
theorem c9_typeerror_shape_characterization_witness :
    spawnAux false ⟨str "message1", .obj 0, 0⟩ 0 false
        [{ id := 1, passMessages := .hashV [(str "a", str "b")] }] [] =
      ⟨.errTypeError, []⟩ ∧
    (spawnAux false ⟨str "message1", .obj 0, 0⟩ 0 false
        [{ id := 1, passMessages := .arrV [] }] [] =
       spawnAux false ⟨str "message1", .obj 0, 0⟩ 1 true [] [] ∨
     spawnAux false ⟨str "message1", .obj 0, 0⟩ 0 false
        [{ id := 1, passMessages := .arrV [] }] [] =
       ⟨.ret .undef, []⟩) :=
  ⟨(c9_typeerror_shape_characterization ⟨str "message1", .obj 0, 0⟩ 0 false
      { id := 1, passMessages := .hashV [(str "a", str "b")] } [] [] rfl).1.1
      [(str "a", str "b")] rfl,
   (c9_typeerror_shape_characterization ⟨str "message1", .obj 0, 0⟩ 0 false
      { id := 1, passMessages := .arrV [] } [] [] rfl).2
      (Or.inr (Or.inr ⟨[], rfl⟩))⟩

/-- Counterexample for C6: the claim asserts that a pass-table entry whose
directive is a plain new-name string forwards the message under the new name.
In the code, a mapping-shaped `passMessages` (here renaming `message1` to
`message2`) never forwards anything: the spawn call aborts with a `TypeError`
and the grandparent handler listening for `message2` does not fire (empty
trace). -/
theorem c6_rename_directive_rejected :
    spawn 0 (str "message1") (some (.numV 7))
        [{ id := 1, passMessages := .hashV [(str "message1", str "message2")] },
         { id := 2, onMessages := some [(str "message2", .fn fun _ _ _ => .numV 0)] }] =
      ⟨.errTypeError, []⟩ := rfl

/-- C6 (amended): renaming does not exist in the forwarding path.  When an
ordinary message is forwarded by a visited ancestor (array-shaped pass table
containing the message's current name), the next ancestor receives the very
same envelope: the message keeps its original name and its payload untouched. -/
theorem c6_forwarding_keeps_name_and_payload (msg : Msg) (c : Nat) (sp : Bool)
    (p : CView) (rest : List CView) (tr : List Invocation) (l : List JSStr)
    (hnoh : matchedHandlerValue p msg c = none)
    (hl : p.passMessages = .arrV l)
    (hin : l.contains msg.name = true) :
    spawnAux false msg c sp (p :: rest) tr = spawnAux false msg p.id true rest tr := by
  simp only [spawnAux, hnoh, passDecision, hl, if_neg Bool.false_ne_true, hin, if_true]

/-- Witness for C6 (amended): ancestor 4 forwards `selected` via its array
pass table; the continuation runs on the unchanged envelope (same name
`selected`, same payload). -/
theorem c6_forwarding_keeps_name_and_payload_witness :
    spawnAux false ⟨str "selected", .strV (str "x"), 0⟩ 0 false
        [{ id := 4, passMessages := .arrV [str "selected"] }, { id := 5 }] [] =
      spawnAux false ⟨str "selected", .strV (str "x"), 0⟩ 4 true [{ id := 5 }] [] :=
  c6_forwarding_keeps_name_and_payload ⟨str "selected", .strV (str "x"), 0⟩ 0 false
    { id := 4, passMessages := .arrV [str "selected"] } [{ id := 5 }] []
    [str "selected"] rfl rfl (by decide)

end Courier

namespace Courier

/-- C2 (code bug, evaluated): within the same qualifier tier the matcher is
supposed to select the entry with the greatest number of non-wildcard
characters, but its specificity computation `eventName.replace( "*", "" )`
removes only the FIRST asterisk, so every additional `*` inflates the count.
Both entries below match `message1`; the pattern `me*sage1**` has 7
non-wildcard characters and `message1` has 8, yet the matcher computes
specificity 9 for the former (only one star removed) and selects it. -/
theorem c2_multiwildcard_specificity_bug :
    (matchingEntriesOf [(str "me*sage1**", (1 : Nat)), (str "message1", 2)]
        (str "message1") { id := 9 } 0).length = 2 ∧
    ((str "me*sage1**").filter (fun ch => ch ≠ '*')).length = 7 ∧
    ((str "message1").filter (fun ch => ch ≠ '*')).length = 8 ∧
    (removeFirstStar (str "me*sage1**")).length = 9 ∧
    getValueOfBestMatchingHashEntry [(str "me*sage1**", (1 : Nat)), (str "message1", 2)]
        (str "message1") { id := 9 } 0 = some 1 := by
  refine ⟨by decide, by decide, by decide, by decide, by decide⟩

/-- C3 (code bug, evaluated): `message.source` is assigned once before the
`while` loop and never reassigned on forwarding, so when the child (id 0)
spawns `message1`, the parent (id 1) forwards it, and the grandparent's (id 2)
handler fires, that handler receives the ORIGINAL spawner 0 as its source
argument — not the forwarding parent 1 that the claim (and the repository's
own tests and READMEs) prescribe. -/
theorem c3_source_never_reassigned :
    spawn 0 (str "message1") (some (.numV 7))
        [{ id := 1, passMessages := .boolV true },
         { id := 2, onMessages := some [(str "message1", .fn fun _ _ _ => .numV 42)] }] =
      ⟨.ret .undef, [⟨2, .numV 7, 0, str "message1"⟩]⟩ ∧
    spawn 0 (str "message1") (some (.numV 7))
        [{ id := 1, passMessages := .boolV true },
         { id := 2, onMessages := some [(str "message1", .fn fun _ _ _ => .numV 42)] }] ≠
      ⟨.ret .undef, [⟨2, .numV 7, 1, str "message1"⟩]⟩ := by
  refine ⟨rfl, by decide⟩

/-- C4 (code bug, evaluated): the `messageShouldBePassed` flag is declared
outside the `while` loop and an ancestor whose `passMessages` is absent leaves
the flag at its previous value.  First conjunct: after parent 1 forwards
`message1`, grandparent 2 — which has NO pass table, only an unrelated handler
entry — fails to stop the bubble, and great-grandparent 3's handler fires.
Second conjunct: the very same grandparent configuration, when visited first
(flag still at its initial falsy value), does stop the bubble, exposing the
history-dependence. -/
theorem c4_stale_pass_flag :
    spawn 0 (str "message1") (some (.numV 7))
        [{ id := 1, passMessages := .arrV [str "message1"] },
         { id := 2, onMessages := some [(str "unrelated", .fn fun _ _ _ => .numV 0)] },
         { id := 3, onMessages := some [(str "message1", .fn fun _ _ _ => .numV 0)] }] =
      ⟨.ret .undef, [⟨3, .numV 7, 0, str "message1"⟩]⟩ ∧
    spawn 0 (str "message1") (some (.numV 7))
        [{ id := 2, onMessages := some [(str "unrelated", .fn fun _ _ _ => .numV 0)] },
         { id := 3, onMessages := some [(str "message1", .fn fun _ _ _ => .numV 0)] }] =
      ⟨.ret .undef, []⟩ := by
  refine ⟨rfl, rfl⟩

set_option maxRecDepth 100000 in
/-- Counterexample for C5: qualifier-tier dominance is implemented by adding
1000 to the specificity of child-qualified entries, so it fails once an
unqualified pattern has 1000 or more non-wildcard characters.  For a message
name of 1001 letters, the unqualified exact pattern (computed specificity
1001) is selected over the child-qualified wildcard entry `* childA`
(computed specificity 1000), even though both match and the claim requires
the qualified entry to win regardless of character counts. -/
theorem c5_qualifier_tier_counterexample :
    (⟨str "*", str "childA", (2 : Nat)⟩ : MatchEntry Nat) ∈
      matchingEntriesOf [(List.replicate 1001 'a', (1 : Nat)), (str "* childA", 2)]
        (List.replicate 1001 'a') { id := 9, subviews := [(str "childA", 5)] } 5 ∧
    getValueOfBestMatchingHashEntry
        [(List.replicate 1001 'a', (1 : Nat)), (str "* childA", 2)]
        (List.replicate 1001 'a') { id := 9, subviews := [(str "childA", 5)] } 5 =
      some 1 := by
  refine ⟨by decide, by decide⟩

end Courier

namespace Courier

/-- C5 (amended): among entries matching a given (message name, source) pair,
a child-qualified entry is always selected over unqualified ones PROVIDED
every matching unqualified entry has computed specificity below the tier gap
of 1000 that the implementation adds for the qualifier (always the case for
event patterns shorter than 1000 characters).  Under that proviso the selected
best entry necessarily carries a child-name qualifier. -/
theorem c5_qualified_wins_below_tier_gap {α : Type} [DecidableEq α]
    (hash : List (JSStr × α)) (msgName : JSStr) (view : CView) (srcId : Nat)
    (e : MatchEntry α)
    (he : e ∈ matchingEntriesOf hash msgName view srcId)
    (heq : e.subviewName ≠ [])
    (hsmall : ∀ e2 ∈ matchingEntriesOf hash msgName view srcId,
        e2.subviewName = [] → entrySpecificity e2 < 1000) :
    ∃ b, bestMatchingEntry hash msgName view srcId = some b ∧ b.subviewName ≠ [] := by
  show ∃ b,
    (if 1 < (matchingEntriesOf hash msgName view srcId).length then
        sortByKey (fun e2 => -(entrySpecificity e2)) (matchingEntriesOf hash msgName view srcId)
      else matchingEntriesOf hash msgName view srcId).head? = some b ∧ b.subviewName ≠ []
  by_cases hlen : 1 < (matchingEntriesOf hash msgName view srcId).length
  · rw [if_pos hlen]
    set m := matchingEntriesOf hash msgName view srcId with hm
    have hemem : e ∈ sortByKey (fun e2 => -(entrySpecificity e2)) m :=
      mem_sortByKey.mpr he
    obtain ⟨b, bs, hbs⟩ :
        ∃ b bs, sortByKey (fun e2 => -(entrySpecificity e2)) m = b :: bs := by
      cases hsort : sortByKey (fun e2 => -(entrySpecificity e2)) m with
      | nil => rw [hsort] at hemem; exact absurd hemem (List.not_mem_nil e)
      | cons b bs => exact ⟨b, bs, rfl⟩
    refine ⟨b, by rw [hbs]; rfl, ?_⟩
    have hhead : (sortByKey (fun e2 => -(entrySpecificity e2)) m).head? = some b := by
      rw [hbs]; rfl
    have hmin := sortByKey_head_min b hhead e he
    have hbm : b ∈ m := mem_sortByKey.mp (by rw [hbs]; exact List.mem_cons_self _ _)
    have hspec : entrySpecificity e ≤ entrySpecificity b := by
      have := hmin
      omega
    have hge : (1000 : Int) ≤ entrySpecificity e := by
      unfold entrySpecificity
      rw [if_pos heq]
      have : (0 : Int) ≤ ((removeFirstStar e.eventName).length : Int) := Int.ofNat_nonneg _
      omega
    intro hbq
    have := hsmall b hbm hbq
    omega
  · rw [if_neg hlen]
    have h1 : (matchingEntriesOf hash msgName view srcId).length = 1 := by
      have h0 : 0 < (matchingEntriesOf hash msgName view srcId).length :=
        List.length_pos.mpr (List.ne_nil_of_mem he)
      omega
    obtain ⟨x, hx⟩ := List.length_eq_one.mp h1
    rw [hx]
    rw [hx] at he
    rcases List.mem_singleton.mp he with rfl
    exact ⟨e, rfl, heq⟩

/-- Witness for C5 (amended): the child-qualified entry `selected childA`
is selected over the unqualified `selected` (specificity 8, below the tier
gap) when the source is the child named `childA`. -/
theorem c5_qualified_wins_below_tier_gap_witness :
    (⟨str "selected", str "childA", (1 : Nat)⟩ : MatchEntry Nat) ∈
      matchingEntriesOf [(str "selected childA", (1 : Nat)), (str "selected", 2)]
        (str "selected") { id := 9, subviews := [(str "childA", 5)] } 5 ∧
    ∃ b, bestMatchingEntry [(str "selected childA", (1 : Nat)), (str "selected", 2)]
        (str "selected") { id := 9, subviews := [(str "childA", 5)] } 5 = some b ∧
      b.subviewName ≠ [] :=
  ⟨by decide,
   c5_qualified_wins_below_tier_gap
     [(str "selected childA", (1 : Nat)), (str "selected", 2)] (str "selected")
     { id := 9, subviews := [(str "childA", 5)] } 5
     ⟨str "selected", str "childA", 1⟩ (by decide) (by decide) (by decide)⟩

end Courier
